import Mathlib

/-!
Verification of the opencode-tunnel core against its specification.

The wire protocol, the client-side proxy engine and the relay-side gateway
(Durable Object) are shallowly embedded below.  Byte buffers (`Uint8Array`)
are modelled as `List Nat` with the invariant that every element is `< 256`
where it matters; JavaScript strings are modelled as Lean `String` or
`List Char` (for base64 payloads, where per-character access is needed).
-/

set_option autoImplicit false

namespace OCT

/-! ## Embedding of src/worker/lib/protocol.ts -/

/-- Maximum chunk size for streaming responses: `CHUNK_SIZE = 500 * 1024`
(500KB to stay under the 1MB WebSocket message limit). -/
def CHUNK_SIZE : Nat := 500 * 1024

/-- The standard base64 alphabet used by `btoa` / `atob`. -/
def base64Alphabet : List Char :=
  "ABCDEFGHIJKLMNOPQRSTUVWXYZabcdefghijklmnopqrstuvwxyz0123456789+/".data

/-- The base64 digit for a sextet value (`n < 64`). -/
def sextetChar (n : Nat) : Char := base64Alphabet.getD n 'A'

/-- The sextet value of a base64 digit; `none` for characters outside the
alphabet (this is what makes `atob` throw). -/
def sextetIndex? (c : Char) : Option Nat := base64Alphabet.indexOf? c

/-- Embedding of `encodeBase64(data)` from protocol.ts:
`btoa(String.fromCharCode(...data))`, i.e. standard padded base64 over the
byte values of `data` (each `< 256`, guaranteed by `Uint8Array`). -/
def encodeBase64 : List Nat → List Char
  | [] => []
  | [a] => [sextetChar (a / 4), sextetChar (a % 4 * 16), '=', '=']
  | [a, b] =>
    [sextetChar (a / 4), sextetChar (a % 4 * 16 + b / 16), sextetChar (b % 16 * 4), '=']
  | a :: b :: c :: rest =>
    sextetChar (a / 4) :: sextetChar (a % 4 * 16 + b / 16) ::
      sextetChar (b % 16 * 4 + c / 64) :: sextetChar (c % 64) :: encodeBase64 rest

/-- Model of `atob(s)` followed by reading each character of the resulting
binary string into a byte (`charCodeAt`): strict padded base64 decoding.
`none` models the `InvalidCharacterError` thrown by `atob` on malformed
input. -/
def atobBytes? : List Char → Option (List Nat)
  | [] => some []
  | c0 :: c1 :: c2 :: c3 :: rest =>
    match sextetIndex? c0, sextetIndex? c1 with
    | some s0, some s1 =>
      if c2 = '=' then
        if c3 = '=' ∧ rest = [] then some [s0 * 4 + s1 / 16] else none
      else
        match sextetIndex? c2 with
        | some s2 =>
          if c3 = '=' then
            if rest = [] then some [s0 * 4 + s1 / 16, s1 % 16 * 16 + s2 / 4] else none
          else
            match sextetIndex? c3, atobBytes? rest with
            | some s3, some tail =>
              some ((s0 * 4 + s1 / 16) :: (s1 % 16 * 16 + s2 / 4) :: (s2 % 4 * 64 + s3) :: tail)
            | _, _ => none
        | none => none
    | _, _ => none
  | _ => none

/-- Embedding of `decodeBase64(base64)` from protocol.ts: `atob` then collect
the character codes into a `Uint8Array`. -/
def decodeBase64 : List Char → Option (List Nat) := atobBytes?

/-- Embedding of `chunkData(data, chunkSize)` from protocol.ts: the generator
`for (let i = 0; i < data.length; i += chunkSize) yield data.slice(i, min(i +
chunkSize, data.length))`, expressed by take/drop recursion.  For
`chunkSize = 0` the JavaScript loop does not terminate; the model returns
`[]` there, and every theorem about it assumes a positive chunk size. -/
def chunkData (data : List Nat) (size : Nat) : List (List Nat) :=
  if h : data = [] ∨ size = 0 then []
  else data.take size :: chunkData (data.drop size) size
termination_by data.length
decreasing_by
  push_neg at h
  have hd : 0 < data.length := List.length_pos.mpr h.1
  simp only [List.length_drop]
  omega

/-- Embedding of `combineChunks(chunks)` from protocol.ts: allocate the total
length and copy each chunk at its running offset, i.e. concatenation. -/
def combineChunks (chunks : List (List Nat)) : List Nat := chunks.flatten

/-! ## UTF-8 (the encoding `fetch` applies to a JavaScript string body, and
the encoding `TextEncoder.encode` performs) -/

/-- UTF-8 encoding of one code point. -/
def utf8EncodeChar (c : Nat) : List Nat :=
  if c < 128 then [c]
  else if c < 2048 then [192 + c / 64, 128 + c % 64]
  else if c < 65536 then [224 + c / 4096, 128 + c / 64 % 64, 128 + c % 64]
  else [240 + c / 262144, 128 + c / 4096 % 64, 128 + c / 64 % 64, 128 + c % 64]

/-- UTF-8 encoding of a sequence of code points. -/
def utf8Encode (codepoints : List Nat) : List Nat :=
  (codepoints.map utf8EncodeChar).flatten

/-! ## Protocol messages (the tagged records of protocol.ts) -/

/-- HTTP headers as a JavaScript object: an association list of exact keys. -/
abbrev Headers := List (String × String)

/-- The `request` wire message (`ProxyRequest` in protocol.ts); `body` is the
optional base64-encoded request body. -/
structure ProxyRequestMsg where
  id : String
  method : String
  url : String
  headers : Headers
  body : Option (List Char)
deriving DecidableEq, Repr

/-- The client-to-gateway wire messages of protocol.ts (`ResponseStart`,
`ResponseChunk`, `ResponseEnd`, `ResponseError`); chunk payloads are
base64-encoded. -/
inductive ClientMsg where
  | responseStart (id : String) (status : Nat) (headers : Headers)
  | responseChunk (id : String) (chunk : List Char)
  | responseEnd (id : String)
  | responseError (id : String) (error : String)
deriving DecidableEq, Repr

/-! ## Embedding of src/worker/lib/tunnel-client.ts (the Proxy Engine) -/

/-- The outcome of the injected downstream executor (`config.fetch`): either
the awaited fetch promise rejects, or it yields a response whose body stream
produces `pieces` (the successive `reader.read()` values) and then either
ends cleanly (`tailError = none`) or throws while being read. -/
inductive FetchOutcome where
  | failure (msg : String)
  | success (status : Nat) (headers : Headers) (pieces : List (List Nat))
      (tailError : Option String)
deriving DecidableEq, Repr

/-- The chunk messages `TunnelClient.handleProxyRequest` emits for a response
body: each `reader.read()` value is split by `chunkData` (at the default
`CHUNK_SIZE`) and each slice sent as a base64-encoded `response-chunk`. -/
def chunkMsgs (id : String) (pieces : List (List Nat)) : List ClientMsg :=
  pieces.flatMap fun piece =>
    (chunkData piece CHUNK_SIZE).map fun ch => ClientMsg.responseChunk id (encodeBase64 ch)

/-- The message the runtime's `atob` failure turns into: the thrown error is
caught and reported through `response-error` with the exception's message. -/
def atobErrorMsg : String := "InvalidCharacterError"

/-- Embedding of `TunnelClient.handleProxyRequest`: decode the optional body
(`atob`; a failure is caught and reported as a single `response-error`),
invoke the downstream executor, and emit the protocol messages for its
outcome: `response-start`, the body chunks, then `response-end`, or a single
`response-error` if the fetch promise rejects or the body stream throws. -/
def handleProxyRequestClient (req : ProxyRequestMsg) (outcome : FetchOutcome) :
    List ClientMsg :=
  let decoded : Option (Option (List Nat)) :=
    match req.body with
    | none => some none
    | some b64 => (atobBytes? b64).map some
  match decoded with
  | none => [ClientMsg.responseError req.id atobErrorMsg]
  | some _ =>
    match outcome with
    | FetchOutcome.failure msg => [ClientMsg.responseError req.id msg]
    | FetchOutcome.success status headers pieces tailError =>
      ClientMsg.responseStart req.id status headers ::
        chunkMsgs req.id pieces ++
          (match tailError with
           | none => [ClientMsg.responseEnd req.id]
           | some msg => [ClientMsg.responseError req.id msg])

/-- The bytes the downstream executor receives as request body, given the
base64 `body` field: tunnel-client.ts decodes with `body = atob(proxyReq.body)`
(a binary string whose code points are the transported bytes) and passes that
string to `fetch`, which serializes a string body as its UTF-8 encoding. -/
def executorBodyBytes (b64 : List Char) : Option (List Nat) :=
  (atobBytes? b64).map utf8Encode

/-! ## Embedding of src/worker/tunnel-do.ts (the Gateway, TunnelDO) -/

/-- One entry of the Durable Object's `pendingRequests` map.  The `resolve` /
`reject` / `controller` capabilities are modelled by the observable `Effect`s
the handlers emit; the stored data fields remain. -/
structure PendingEntry where
  status : Option Nat := none
  headers : Option Headers := none
  isCSS : Bool := false
deriving DecidableEq, Repr

/-- A WebSocket as the gateway sees it: an identity and its `readyState`. -/
structure Socket where
  sid : Nat
  readyState : Nat
deriving DecidableEq, Repr

/-- `WebSocket.OPEN`. -/
def WS_OPEN : Nat := 1

/-- The gateway's per-tunnel mutable state: the single `clientWs` reference
and the `pendingRequests` map (insertion-ordered, as a JavaScript `Map`),
plus the set of armed single-shot header-deadline timers (`setTimeout`
handles that have neither fired nor been cleared). -/
structure GWState where
  clientWs : Option Socket
  pending : List (String × PendingEntry)
  timers : List String
deriving DecidableEq, Repr

/-- `pendingRequests.get(id)` (keys are unique `crypto.randomUUID()` values;
the model returns the first binding). -/
def lookupEntry : List (String × PendingEntry) → String → Option PendingEntry
  | [], _ => none
  | (k, v) :: rest, id => if k = id then some v else lookupEntry rest id

/-- `pendingRequests.set(id, e)`: replace the binding if present, else append. -/
def setEntry : List (String × PendingEntry) → String → PendingEntry →
    List (String × PendingEntry)
  | [], id, e => [(id, e)]
  | (k, v) :: rest, id, e =>
    if k = id then (id, e) :: rest else (k, v) :: setEntry rest id e

/-- `pendingRequests.delete(id)` (keys unique, so dropping every binding of
`id` coincides with the `Map` behaviour). -/
def deleteEntry (m : List (String × PendingEntry)) (id : String) :
    List (String × PendingEntry) :=
  m.filter fun kv => kv.1 ≠ id

/-- `clearTimeout` / expiry of the single-shot timer for `id`. -/
def removeTimer (timers : List String) (id : String) : List String :=
  timers.filter fun t => t ≠ id

/-- Model of JavaScript `String.prototype.includes` on character lists. -/
def containsSub (sub : List Char) : List Char → Bool
  | [] => sub.isEmpty
  | c :: rest => sub.isPrefixOf (c :: rest) || containsSub sub rest

/-- `s.includes(sub)` for Lean strings. -/
def strContains (s sub : String) : Bool := containsSub sub.data s.data

/-- JavaScript `a || b` for an optional string `a` (absent and `""` are
falsy). -/
def jsOr (a : Option String) (b : String) : String :=
  match a with
  | some s => if s = "" then b else s
  | none => b

/-- tunnel-do.ts response-start handling: `message.headers["content-type"] ||
message.headers["Content-Type"] || ""`. -/
def contentTypeOf (hs : Headers) : String :=
  jsOr (hs.lookup "content-type") (jsOr (hs.lookup "Content-Type") "")

/-- tunnel-do.ts: `contentType.includes("text/css") ||
contentType.includes("css")`. -/
def isCssContentType (ct : String) : Bool :=
  strContains ct "text/css" || strContains ct "css"

/-- The stylesheet block `handleClientMessage` appends to CSS responses on
`response-end` (the `cssOverride` template literal; braces are the escapes
\x7b and \x7d). -/
def cssOverride : String :=
  "\n/\x2a === OPENCODE TUNNEL CSS OVERRIDES === \x2a/\ndiv.absolute[class\x2a=\"bottom-\"][class\x2a=\"flex\"][class\x2a=\"z-50\"][class\x2a=\"justify-center\"] \x7b\n  position: sticky !important;\n  bottom: 0 !important;\n\x7d\n\n#root \x7b\n  height: 100dvh;\n\x7d\n\n[data-component=\"user-message\"] \x7b\n  min-width: 0;\n  max-width: 100%;\n\x7d\n\n[data-component=\"user-message\"] [data-slot=\"user-message-text\"] \x7b\n    overflow-wrap: break-word;\n    word-break: break-word;\n\x7d\n\n[data-component=\"prompt-input\"] \x7b\n    font-size: 16px;\n\x7d\n\n[data-component=tabs] \x7b\n    padding-bottom: 0 !important;\n\x7d\n\n[data-component=input] [data-slot=input-input] \x7b\n    font-size: 16px !important;\n\x7d\n"

/-- `new TextEncoder().encode(cssOverride)`. -/
def cssOverrideBytes : List Nat := utf8Encode (cssOverride.data.map Char.toNat)

/-- The 503 body sent when no client is connected. -/
def msg503 : String := "Tunnel client not connected. Make sure the CLI is running."

/-- The close reason used when a new connection supersedes the old one. -/
def supersedeReason : String := "New connection established"

/-- The rejection message used when the WebSocket connection closes. -/
def connClosedMsg : String := "WebSocket connection closed"

/-- The rejection message of the 30s header-deadline timer. -/
def timeoutMsg : String := "Request timeout - no response received"

/-- The header-deadline duration passed to `setTimeout` (milliseconds). -/
def REQUEST_TIMEOUT_MS : Nat := 30000

/-- `url.pathname.replace(/^\/proxy/, "")`. -/
def stripProxy (pathname : String) : String :=
  if pathname.startsWith "/proxy" then pathname.drop 6 else pathname

/-- The observable actions of the gateway handlers: promise resolution and
stream operations of a `PendingRequest`, socket operations, and the immediate
HTTP response of the no-client path.  `rejectReq` models `pending.reject`
(which errors the response stream and rejects the response promise). -/
inductive Effect where
  | resolveHeaders (id : String) (status : Nat) (headers : Headers)
  | enqueue (id : String) (bytes : List Nat)
  | closeStream (id : String)
  | errorStream (id : String) (msg : String)
  | rejectReq (id : String) (msg : String)
  | closeSocket (sid : Nat) (code : Nat) (reason : String)
  | sendRequest (sid : Nat) (msg : ProxyRequestMsg)
  | httpResponse (status : Nat) (body : String)
deriving DecidableEq, Repr

/-- The events the runtime delivers to the Durable Object, each handled by
the corresponding handler in tunnel-do.ts.  The DO executes one event at a
time (single-actor semantics).  `timerFire id` is only deliverable while the
timer for `id` is armed (single-shot `setTimeout` not yet cleared); a
disarmed timer's event is a no-op by construction. -/
inductive GEvent where
  | wsConnect (sid : Nat)
  | wsClose
  | wsError
  | clientMsg (m : ClientMsg)
  | proxyReq (id : String) (method : String) (pathname : String) (search : String)
      (headers : Headers) (bodyChunks : List (List Nat))
  | timerFire (id : String)
  | cancelReq (id : String)
deriving DecidableEq, Repr

/-- One step of the gateway: the handler tunnel-do.ts runs for the event,
returning the successor state and the effects it performs, in program
order. -/
def step (s : GWState) : GEvent → GWState × List Effect
  | GEvent.wsConnect sid =>
    ({ s with clientWs := some ⟨sid, WS_OPEN⟩ },
      match s.clientWs with
      | some w => [Effect.closeSocket w.sid 1000 supersedeReason]
      | none => [])
  | GEvent.wsClose =>
    ({ clientWs := none, pending := [], timers := s.timers },
      s.pending.map fun kv => Effect.rejectReq kv.1 connClosedMsg)
  | GEvent.wsError => ({ s with clientWs := none }, [])
  | GEvent.clientMsg (ClientMsg.responseStart id status headers) =>
    match lookupEntry s.pending id with
    | none => (s, [])
    | some e =>
      let css := isCssContentType (contentTypeOf headers)
      let e' : PendingEntry := { e with status := some status, headers := some headers, isCSS := css }
      ({ s with pending := setEntry s.pending id e', timers := removeTimer s.timers id },
        [Effect.resolveHeaders id status headers])
  | GEvent.clientMsg (ClientMsg.responseChunk id chunk) =>
    match lookupEntry s.pending id with
    | none => (s, [])
    | some _ =>
      if chunk = [] then (s, [])
      else
        match atobBytes? chunk with
        | some bytes => (s, [Effect.enqueue id bytes])
        | none =>
          ({ s with pending := deleteEntry s.pending id }, [Effect.errorStream id atobErrorMsg])
  | GEvent.clientMsg (ClientMsg.responseEnd id) =>
    match lookupEntry s.pending id with
    | none => (s, [])
    | some e =>
      ({ s with pending := deleteEntry s.pending id },
        (if e.isCSS then [Effect.enqueue id cssOverrideBytes] else []) ++ [Effect.closeStream id])
  | GEvent.clientMsg (ClientMsg.responseError id err) =>
    match lookupEntry s.pending id with
    | none => (s, [])
    | some _ =>
      ({ s with pending := deleteEntry s.pending id },
        [Effect.rejectReq id (if err = "" then "Unknown error" else err)])
  | GEvent.proxyReq id method pathname search headers bodyChunks =>
    match s.clientWs with
    | none => (s, [Effect.httpResponse 503 msg503])
    | some w =>
      if w.readyState ≠ WS_OPEN then (s, [Effect.httpResponse 503 msg503])
      else
        let bodyB64 : Option (List Char) :=
          if bodyChunks.length > 0 then some (encodeBase64 bodyChunks.flatten) else none
        let path := stripProxy pathname
        let url := (if path = "" then "/" else path) ++ search
        ({ s with pending := setEntry s.pending id {}, timers := id :: s.timers },
          [Effect.sendRequest w.sid ⟨id, method, url, headers, bodyB64⟩])
  | GEvent.timerFire id =>
    if id ∈ s.timers then
      let s' : GWState := { s with timers := removeTimer s.timers id }
      match lookupEntry s.pending id with
      | some _ =>
        ({ s' with pending := deleteEntry s'.pending id }, [Effect.rejectReq id timeoutMsg])
      | none => (s', [])
    else (s, [])
  | GEvent.cancelReq id =>
    if (lookupEntry s.pending id).isSome then
      ({ s with pending := deleteEntry s.pending id }, [])
    else (s, [])

/-- Run the gateway actor over a sequence of delivered events, collecting
effects in order. -/
def run (s : GWState) : List GEvent → GWState × List Effect
  | [] => (s, [])
  | e :: es =>
    let p := step s e
    let q := run p.1 es
    (q.1, p.2 ++ q.2)

/-- The body the original HTTP caller receives for request `id`: the
concatenation of all bytes enqueued into its response stream. -/
def deliveredBody (id : String) (effs : List Effect) : List Nat :=
  (effs.filterMap fun eff =>
    match eff with
    | Effect.enqueue i bs => if i = id then some bs else none
    | _ => none).flatten

/-- Whether an effect concerns the `PendingRequest` with the given id. -/
def touchesId (eff : Effect) (id : String) : Bool :=
  match eff with
  | Effect.resolveHeaders i _ _ => i == id
  | Effect.enqueue i _ => i == id
  | Effect.closeStream i => i == id
  | Effect.errorStream i _ => i == id
  | Effect.rejectReq i _ => i == id
  | _ => false

/-- The effects of a handler run that concern the given id. -/
def effectsFor (id : String) (effs : List Effect) : List Effect :=
  effs.filter fun eff => touchesId eff id

/-- The terminal events for a correlation id:
`ResponseEnd`, `ResponseError`, timeout, connection loss, caller
cancellation. -/
def isTerminalFor : GEvent → String → Bool
  | GEvent.clientMsg (ClientMsg.responseEnd i), id => i == id
  | GEvent.clientMsg (ClientMsg.responseError i _), id => i == id
  | GEvent.timerFire i, id => i == id
  | GEvent.cancelReq i, id => i == id
  | GEvent.wsClose, _ => true
  | _, _ => false

/-- The correlation id carried by a client-to-gateway message. -/
def msgId : ClientMsg → String
  | ClientMsg.responseStart id _ _ => id
  | ClientMsg.responseChunk id _ => id
  | ClientMsg.responseEnd id => id
  | ClientMsg.responseError id _ => id

/-- Whether a message is a `response-end`. -/
def isEndMsg : ClientMsg → Bool
  | ClientMsg.responseEnd _ => true
  | _ => false

/-- Whether a message is a `response-error`. -/
def isErrorMsg : ClientMsg → Bool
  | ClientMsg.responseError _ _ => true
  | _ => false

/-- The composition of the two engines for one exchange: the Proxy Engine
handles a `request` message against a downstream outcome, and the gateway
actor consumes, in order, exactly the messages it emitted. -/
def gatewayOutputFor (s : GWState) (req : ProxyRequestMsg) (outcome : FetchOutcome) :
    GWState × List Effect :=
  run s ((handleProxyRequestClient req outcome).map GEvent.clientMsg)

/-! ## Base64 helper lemmas -/

theorem sextet_round_fin : ∀ i : Fin 64, sextetIndex? (sextetChar i.val) = some i.val := by
  decide

theorem sextet_round (n : Nat) (h : n < 64) : sextetIndex? (sextetChar n) = some n :=
  sextet_round_fin ⟨n, h⟩

theorem sextetChar_ne_pad_fin : ∀ i : Fin 64, sextetChar i.val ≠ '=' := by decide

theorem sextetChar_ne_pad (n : Nat) (h : n < 64) : sextetChar n ≠ '=' :=
  sextetChar_ne_pad_fin ⟨n, h⟩

theorem atob_encode (data : List Nat) (h : ∀ b ∈ data, b < 256) :
    atobBytes? (encodeBase64 data) = some data := by
  induction data using encodeBase64.induct with
  | case1 => rfl
  | case2 a =>
    have ha : a < 256 := h a (by simp)
    have e0 := sextet_round (a / 4) (by omega)
    have e1 := sextet_round (a % 4 * 16) (by omega)
    simp [encodeBase64, atobBytes?, e0, e1] <;> omega
  | case3 a b =>
    have ha : a < 256 := h a (by simp)
    have hb : b < 256 := h b (by simp)
    have e0 := sextet_round (a / 4) (by omega)
    have e1 := sextet_round (a % 4 * 16 + b / 16) (by omega)
    have e2 := sextet_round (b % 16 * 4) (by omega)
    have ne2 := sextetChar_ne_pad (b % 16 * 4) (by omega)
    simp [encodeBase64, atobBytes?, e0, e1, e2, ne2] <;> omega
  | case4 a b c rest ih =>
    have ha : a < 256 := h a (by simp)
    have hb : b < 256 := h b (by simp)
    have hc : c < 256 := h c (by simp)
    have hrest : ∀ x ∈ rest, x < 256 := fun x hx => h x (by simp [hx])
    have e0 := sextet_round (a / 4) (by omega)
    have e1 := sextet_round (a % 4 * 16 + b / 16) (by omega)
    have e2 := sextet_round (b % 16 * 4 + c / 64) (by omega)
    have e3 := sextet_round (c % 64) (by omega)
    have ne2 := sextetChar_ne_pad (b % 16 * 4 + c / 64) (by omega)
    have ne3 := sextetChar_ne_pad (c % 64) (by omega)
    simp [encodeBase64, atobBytes?, e0, e1, e2, e3, ne2, ne3, ih hrest] <;> omega

theorem encodeBase64_ne_nil (data : List Nat) (h : data ≠ []) : encodeBase64 data ≠ [] := by
  match data with
  | [] => exact absurd rfl h
  | [a] => simp [encodeBase64]
  | [a, b] => simp [encodeBase64]
  | a :: b :: c :: rest => simp [encodeBase64]

/-! ## Chunking helper lemmas -/

theorem chunkData_nil (size : Nat) : chunkData [] size = [] := by
  rw [chunkData]; simp

theorem chunkData_cons (data : List Nat) (size : Nat) (hd : data ≠ []) (hs : 0 < size) :
    chunkData data size = data.take size :: chunkData (data.drop size) size := by
  rw [chunkData]
  rw [dif_neg (by push_neg; exact ⟨hd, by omega⟩)]

theorem combineChunks_chunkData (data : List Nat) (size : Nat) (h : 0 < size) :
    combineChunks (chunkData data size) = data := by
  suffices H : ∀ n (l : List Nat), l.length ≤ n → combineChunks (chunkData l size) = l by
    exact H data.length data le_rfl
  intro n
  induction n with
  | zero =>
    intro l hlen
    have : l = [] := by cases l <;> simp_all
    rw [this, chunkData_nil]; rfl
  | succ n ih =>
    intro l hlen
    by_cases hd : l = []
    · rw [hd, chunkData_nil]; rfl
    · rw [chunkData_cons l size hd h]
      have hpos : 0 < l.length := List.length_pos.mpr hd
      have hdroplen : (l.drop size).length ≤ n := by
        simp only [List.length_drop]; omega
      show (l.take size) ++ combineChunks (chunkData (l.drop size) size) = l
      rw [ih (l.drop size) hdroplen, List.take_append_drop]

theorem chunkData_length_eq (data : List Nat) (size : Nat) (h : 0 < size) :
    (chunkData data size).length = (data.length + size - 1) / size := by
  suffices H : ∀ n (l : List Nat), l.length ≤ n →
      (chunkData l size).length = (l.length + size - 1) / size by
    exact H data.length data le_rfl
  intro n
  induction n with
  | zero =>
    intro l hlen
    have : l = [] := by cases l <;> simp_all
    rw [this, chunkData_nil]
    simp [Nat.div_eq_of_lt (show size - 1 < size by omega)]
  | succ n ih =>
    intro l hlen
    by_cases hd : l = []
    · rw [hd, chunkData_nil]
      simp [Nat.div_eq_of_lt (show size - 1 < size by omega)]
    · rw [chunkData_cons l size hd h]
      have hpos : 0 < l.length := List.length_pos.mpr hd
      have hdroplen : (l.drop size).length ≤ n := by
        simp only [List.length_drop]; omega
      simp only [List.length_cons, ih (l.drop size) hdroplen, List.length_drop]
      have key : l.length + size - 1 = (l.length - 1) + size := by omega
      rw [key, Nat.add_div_right _ h]
      by_cases hls : size ≤ l.length
      · have : l.length - size + size - 1 = l.length - 1 := by omega
        rw [this]
      · have h1 : l.length - size = 0 := by omega
        rw [h1]
        rw [Nat.div_eq_of_lt (show 0 + size - 1 < size by omega),
          Nat.div_eq_of_lt (show l.length - 1 < size by omega)]

theorem chunkData_size_le (data : List Nat) (size : Nat) (h : 0 < size) :
    ∀ c ∈ chunkData data size, c.length ≤ size := by
  suffices H : ∀ n (l : List Nat), l.length ≤ n → ∀ c ∈ chunkData l size, c.length ≤ size by
    exact H data.length data le_rfl
  intro n
  induction n with
  | zero =>
    intro l hlen c hc
    have : l = [] := by cases l <;> simp_all
    rw [this, chunkData_nil] at hc
    exact absurd hc (List.not_mem_nil c)
  | succ n ih =>
    intro l hlen c hc
    by_cases hd : l = []
    · rw [hd, chunkData_nil] at hc
      exact absurd hc (List.not_mem_nil c)
    · rw [chunkData_cons l size hd h] at hc
      have hpos : 0 < l.length := List.length_pos.mpr hd
      have hdroplen : (l.drop size).length ≤ n := by
        simp only [List.length_drop]; omega
      rw [List.mem_cons] at hc
      rcases hc with hc | hc
      · rw [hc]; simp [List.length_take]
      · exact ih (l.drop size) hdroplen c hc

theorem chunkData_ne_nil_mem (data : List Nat) (size : Nat) (h : 0 < size) :
    ∀ c ∈ chunkData data size, c ≠ [] := by
  suffices H : ∀ n (l : List Nat), l.length ≤ n → ∀ c ∈ chunkData l size, c ≠ [] by
    exact H data.length data le_rfl
  intro n
  induction n with
  | zero =>
    intro l hlen c hc
    have : l = [] := by cases l <;> simp_all
    rw [this, chunkData_nil] at hc
    exact absurd hc (List.not_mem_nil c)
  | succ n ih =>
    intro l hlen c hc
    by_cases hd : l = []
    · rw [hd, chunkData_nil] at hc
      exact absurd hc (List.not_mem_nil c)
    · rw [chunkData_cons l size hd h] at hc
      have hpos : 0 < l.length := List.length_pos.mpr hd
      have hdroplen : (l.drop size).length ≤ n := by
        simp only [List.length_drop]; omega
      rw [List.mem_cons] at hc
      rcases hc with hc | hc
      · rw [hc]
        intro hnil
        have hlen0 := congrArg List.length hnil
        simp only [List.length_take, List.length_nil] at hlen0
        omega
      · exact ih (l.drop size) hdroplen c hc

theorem chunkData_mem_mem (data : List Nat) (size : Nat) :
    ∀ c ∈ chunkData data size, ∀ b ∈ c, b ∈ data := by
  suffices H : ∀ n (l : List Nat), l.length ≤ n →
      ∀ c ∈ chunkData l size, ∀ b ∈ c, b ∈ l by
    exact H data.length data le_rfl
  intro n
  induction n with
  | zero =>
    intro l hlen c hc
    have : l = [] := by cases l <;> simp_all
    rw [this, chunkData_nil] at hc
    exact absurd hc (List.not_mem_nil c)
  | succ n ih =>
    intro l hlen c hc b hb
    rw [chunkData] at hc
    split at hc
    · exact absurd hc (List.not_mem_nil c)
    · rename_i hcond
      push_neg at hcond
      have hpos : 0 < l.length := List.length_pos.mpr hcond.1
      have hdroplen : (l.drop size).length ≤ n := by
        simp only [List.length_drop]; omega
      rw [List.mem_cons] at hc
      rcases hc with hc | hc
      · rw [hc] at hb
        exact List.mem_of_mem_take hb
      · exact List.mem_of_mem_drop (ih (l.drop size) hdroplen c hc b hb)

theorem chunkData_getElem_full (data : List Nat) (size : Nat) (h : 0 < size) :
    ∀ i c, (chunkData data size)[i]? = some c → i + 1 < (chunkData data size).length →
      c.length = size := by
  suffices H : ∀ n (l : List Nat), l.length ≤ n → ∀ i c,
      (chunkData l size)[i]? = some c → i + 1 < (chunkData l size).length →
      c.length = size by
    exact H data.length data le_rfl
  intro n
  induction n with
  | zero =>
    intro l hlen i c hc hi
    have : l = [] := by cases l <;> simp_all
    rw [this, chunkData_nil] at hc
    simp at hc
  | succ n ih =>
    intro l hlen i c hc hi
    by_cases hd : l = []
    · rw [hd, chunkData_nil] at hc
      simp at hc
    · rw [chunkData_cons l size hd h] at hc hi
      have hpos : 0 < l.length := List.length_pos.mpr hd
      have hdroplen : (l.drop size).length ≤ n := by
        simp only [List.length_drop]; omega
      match i with
      | 0 =>
        simp only [List.getElem?_cons_zero, Option.some.injEq] at hc
        simp only [List.length_cons] at hi
        have hrest : chunkData (l.drop size) size ≠ [] := by
          intro hnil
          rw [hnil] at hi
          simp at hi
        have hdropne : l.drop size ≠ [] := by
          intro hnil
          rw [hnil, chunkData_nil] at hrest
          exact hrest rfl
        have : size < l.length := by
          by_contra hcon
          push_neg at hcon
          exact hdropne (List.drop_eq_nil_of_le hcon)
        rw [← hc]
        simp only [List.length_take]
        omega
      | j + 1 =>
        simp only [List.getElem?_cons_succ] at hc
        simp only [List.length_cons] at hi
        exact ih (l.drop size) hdroplen j c hc (by omega)

/-! ## C2 and C10 -/

/-- C2: for every byte sequence and every positive chunk size,
`combineChunks (chunkData data size) = data`; the number of chunks is
`ceil(length/size)`; every chunk has length at most `size`; and every chunk
other than the last has length exactly `size`. -/
theorem chunk_combine_spec (data : List Nat) (size : Nat) (h : 0 < size) :
    combineChunks (chunkData data size) = data ∧
    (chunkData data size).length = (data.length + size - 1) / size ∧
    (∀ c ∈ chunkData data size, c.length ≤ size) ∧
    (∀ i c, (chunkData data size)[i]? = some c → i + 1 < (chunkData data size).length →
      c.length = size) :=
  ⟨combineChunks_chunkData data size h, chunkData_length_eq data size h,
    chunkData_size_le data size h, chunkData_getElem_full data size h⟩

/-- Witness for C2 at `data = [1, 2, 3, 4, 5]`, `size = 2`. -/
theorem chunk_combine_spec_witness :
    0 < 2 ∧
    (combineChunks (chunkData [1, 2, 3, 4, 5] 2) = [1, 2, 3, 4, 5] ∧
      (chunkData [1, 2, 3, 4, 5] 2).length = ([1, 2, 3, 4, 5].length + 2 - 1) / 2 ∧
      (∀ c ∈ chunkData [1, 2, 3, 4, 5] 2, c.length ≤ 2) ∧
      (∀ i c, (chunkData [1, 2, 3, 4, 5] 2)[i]? = some c →
        i + 1 < (chunkData [1, 2, 3, 4, 5] 2).length → c.length = 2)) :=
  ⟨by decide, chunk_combine_spec [1, 2, 3, 4, 5] 2 (by decide)⟩

/-- C10: decoding is the exact inverse of encoding: for every byte sequence
(each byte `< 256`, as `Uint8Array` guarantees), `decodeBase64 (encodeBase64
data)` recovers `data`, including for the empty sequence. -/
theorem base64_roundtrip (data : List Nat) (h : ∀ b ∈ data, b < 256) :
    decodeBase64 (encodeBase64 data) = some data :=
  atob_encode data h

/-- Witness for C10 at a five-byte input (and the empty and one-byte inputs
are covered by the decidable facts below). -/
theorem base64_roundtrip_witness :
    (∀ b ∈ [0, 255, 10, 128, 7], b < 256) ∧
    decodeBase64 (encodeBase64 [0, 255, 10, 128, 7]) = some [0, 255, 10, 128, 7] :=
  ⟨by decide, base64_roundtrip [0, 255, 10, 128, 7] (by decide)⟩

/-! ## Pending-map helper lemmas -/

theorem lookupEntry_deleteEntry_self (m : List (String × PendingEntry)) (id : String) :
    lookupEntry (deleteEntry m id) id = none := by
  induction m with
  | nil => rfl
  | cons kv rest ih =>
    cases kv with
    | mk k v =>
      by_cases hk : k = id
      · simpa [deleteEntry, List.filter_cons, hk] using ih
      · simpa [deleteEntry, List.filter_cons, hk, lookupEntry] using ih

theorem lookupEntry_none_forall (m : List (String × PendingEntry)) (id : String)
    (h : lookupEntry m id = none) : ∀ kv ∈ m, kv.1 ≠ id := by
  induction m with
  | nil => intro kv hkv; exact absurd hkv (List.not_mem_nil kv)
  | cons kv0 rest ih =>
    intro kv hkv
    cases kv0 with
    | mk k v =>
      by_cases hk : k = id
      · simp [lookupEntry, hk] at h
      · simp only [lookupEntry, hk, if_false, if_neg hk] at h
        rw [List.mem_cons] at hkv
        rcases hkv with hkv | hkv
        · rw [hkv]; exact hk
        · exact ih h kv hkv

theorem deleteEntry_of_lookup_none (m : List (String × PendingEntry)) (id : String)
    (h : lookupEntry m id = none) : deleteEntry m id = m := by
  have hall := lookupEntry_none_forall m id h
  unfold deleteEntry
  apply List.filter_eq_self.mpr
  intro kv hkv
  simpa using hall kv hkv

theorem lookupEntry_setEntry_self (m : List (String × PendingEntry)) (id : String)
    (e : PendingEntry) : lookupEntry (setEntry m id e) id = some e := by
  induction m with
  | nil => simp [setEntry, lookupEntry]
  | cons kv rest ih =>
    cases kv with
    | mk k v =>
      by_cases hk : k = id
      · simp [setEntry, hk, lookupEntry]
      · simp [setEntry, hk, lookupEntry, ih]

/-! ## C7: 503 with no open client connection -/

/-- C7: an inbound proxied request on a gateway with no client socket in the
open state gets an immediate 503 with the explanatory plain-text body, and
the gateway state (in particular the pending-request table) is unchanged: no
`PendingRequest` is created. -/
theorem no_connection_503 (s : GWState) (id method pathname search : String)
    (headers : Headers) (body : List (List Nat))
    (h : ∀ w, s.clientWs = some w → w.readyState ≠ WS_OPEN) :
    step s (GEvent.proxyReq id method pathname search headers body) =
      (s, [Effect.httpResponse 503 msg503]) ∧
    strContains msg503 "not connected" = true := by
  constructor
  · cases hws : s.clientWs with
    | none => simp [step, hws]
    | some w => simp [step, hws, h w hws]
  · decide

/-- Witness for C7: a gateway with no socket at all. -/
theorem no_connection_503_witness :
    (∀ w : Socket, (none : Option Socket) = some w → w.readyState ≠ WS_OPEN) ∧
    ((step (⟨none, [], []⟩ : GWState) (GEvent.proxyReq "r" "GET" "/" "" [] [])) =
      ((⟨none, [], []⟩ : GWState), [Effect.httpResponse 503 msg503]) ∧
      strContains msg503 "not connected" = true) :=
  by
  constructor
  · intro w hw
    exact absurd hw (by simp)
  · exact no_connection_503 ⟨none, [], []⟩ "r" "GET" "/" "" [] []
      (fun w hw => absurd hw (by simp))

/-! ## C4: close clears the table; the error listener does not -/

/-- C4 counterexample: on a transport `error` event the gateway does NOT fail
the remaining `PendingRequest`s nor clear the table — the error listener only
nulls `clientWs`.  Concretely, with one pending request "a", after `wsError`
the table still holds "a" and no rejection was emitted, refuting the claim
that close AND error both bulk-fail and clear. -/
theorem error_event_keeps_pending :
    (step (⟨some ⟨1, WS_OPEN⟩, [("a", ⟨none, none, false⟩)], ["a"]⟩ : GWState)
        GEvent.wsError).1.pending = [("a", ⟨none, none, false⟩)] ∧
    (step (⟨some ⟨1, WS_OPEN⟩, [("a", ⟨none, none, false⟩)], ["a"]⟩ : GWState)
        GEvent.wsError).2 = [] ∧
    (step (⟨some ⟨1, WS_OPEN⟩, [("a", ⟨none, none, false⟩)], ["a"]⟩ : GWState)
        GEvent.wsError).1.clientWs = none :=
  ⟨rfl, rfl, rfl⟩

/-- C4 amended: on connection close the gateway rejects every remaining
`PendingRequest` with the connection-closed condition (one rejection per
entry, in table order) and clears the table; on a transport error it only
clears the connection reference, leaving the pending table untouched (those
requests are failed only by a subsequent close event or their own
timeouts). -/
theorem close_bulk_fails_error_does_not (s : GWState) :
    (step s GEvent.wsClose).1.pending = [] ∧
    (step s GEvent.wsClose).1.clientWs = none ∧
    (step s GEvent.wsClose).2 =
      s.pending.map (fun kv => Effect.rejectReq kv.1 connClosedMsg) ∧
    (step s GEvent.wsError).1.pending = s.pending ∧
    (step s GEvent.wsError).1.clientWs = none ∧
    (step s GEvent.wsError).2 = [] :=
  ⟨rfl, rfl, rfl, rfl, rfl, rfl⟩

/-! ## C3: connection supersession -/

/-- C3: the supersession slip evaluated on a concrete trace.  Start from an
empty gateway; client socket 1 connects; a proxied request "r1" is accepted;
socket 2 connects (the gateway closes socket 1 with code 1000 and adopts
socket 2); then the close event of the superseded socket is delivered.  The
close listener does not check which socket closed: it unconditionally nulls
`clientWs` and rejects every pending request.  The final state has NO bound
connection — not "open with the new socket" as the claim requires — even
though socket 2 was never closed. -/
theorem supersession_close_clears_new_socket :
    run (⟨none, [], []⟩ : GWState)
      [GEvent.wsConnect 1, GEvent.proxyReq "r1" "GET" "/" "" [] [],
        GEvent.wsConnect 2, GEvent.wsClose] =
      ((⟨none, [], ["r1"]⟩ : GWState),
        [Effect.sendRequest 1 ⟨"r1", "GET", "/", [], none⟩,
          Effect.closeSocket 1 1000 supersedeReason,
          Effect.rejectReq "r1" connClosedMsg]) := by
  decide

/-! ## C8: only the first terminal event for an id has effect -/

/-- C8: for every correlation id, a terminal event (`ResponseEnd`,
`ResponseError`, timeout firing while armed, connection loss, caller
cancellation) leaves the id absent from the pending table; and if the id is
already absent — i.e. a terminal event already consumed it — any further
terminal event for that id emits no effect concerning the id, leaves the id
absent, and (for the id-targeted events) leaves the whole table unchanged:
destruction is idempotent. -/
theorem terminal_idempotent (s : GWState) (e : GEvent) (id : String)
    (hterm : isTerminalFor e id = true) :
    ((e = GEvent.timerFire id → id ∈ s.timers) →
      lookupEntry (step s e).1.pending id = none) ∧
    (lookupEntry s.pending id = none →
      effectsFor id (step s e).2 = [] ∧
      lookupEntry (step s e).1.pending id = none ∧
      (e ≠ GEvent.wsClose → (step s e).1.pending = s.pending)) := by
  cases e with
  | wsConnect sid => simp [isTerminalFor] at hterm
  | wsError => simp [isTerminalFor] at hterm
  | proxyReq a b c d f g => simp [isTerminalFor] at hterm
  | wsClose =>
    constructor
    · intro _
      rfl
    · intro hnone
      refine ⟨?_, rfl, fun hne => absurd rfl hne⟩
      have hall := lookupEntry_none_forall s.pending id hnone
      show effectsFor id (s.pending.map fun kv => Effect.rejectReq kv.1 connClosedMsg) = []
      unfold effectsFor
      rw [List.filter_eq_nil_iff]
      intro eff heff
      rw [List.mem_map] at heff
      obtain ⟨kv, hkv, heq⟩ := heff
      rw [← heq]
      simp only [touchesId, beq_iff_eq, Bool.not_eq_true]
      simpa using hall kv hkv
  | clientMsg m =>
    cases m with
    | responseStart i st hs => simp [isTerminalFor] at hterm
    | responseChunk i ch => simp [isTerminalFor] at hterm
    | responseEnd i =>
      have hid : i = id := by simpa [isTerminalFor] using hterm
      subst hid
      constructor
      · intro _
        cases hlook : lookupEntry s.pending i with
        | none => simpa [step, hlook] using hlook
        | some e => simp [step, hlook, lookupEntry_deleteEntry_self]
      · intro hnone
        simp [step, hnone, effectsFor]
    | responseError i msg =>
      have hid : i = id := by simpa [isTerminalFor] using hterm
      subst hid
      constructor
      · intro _
        cases hlook : lookupEntry s.pending i with
        | none => simpa [step, hlook] using hlook
        | some e => simp [step, hlook, lookupEntry_deleteEntry_self]
      · intro hnone
        simp [step, hnone, effectsFor]
  | timerFire i =>
    have hid : i = id := by simpa [isTerminalFor] using hterm
    subst hid
    constructor
    · intro harm
      have harm' := harm rfl
      cases hlook : lookupEntry s.pending i with
      | none => simpa [step, harm', hlook] using hlook
      | some e => simp [step, harm', hlook, lookupEntry_deleteEntry_self]
    · intro hnone
      by_cases harm : i ∈ s.timers
      · simp [step, harm, hnone, effectsFor]
      · simp [step, harm, hnone, effectsFor]
  | cancelReq i =>
    have hid : i = id := by simpa [isTerminalFor] using hterm
    subst hid
    constructor
    · intro _
      cases hlook : lookupEntry s.pending i with
      | none => simpa [step, hlook] using hlook
      | some e => simp [step, hlook, lookupEntry_deleteEntry_self]
    · intro hnone
      simp [step, hnone, effectsFor]

/-- Witness for C8: a `response-end` for id "a" processed when "a" is absent
from the table (it was already terminated). -/
theorem terminal_idempotent_witness :
    isTerminalFor (GEvent.clientMsg (ClientMsg.responseEnd "a")) "a" = true ∧
    lookupEntry ((⟨none, [("b", ⟨none, none, false⟩)], []⟩ : GWState)).pending "a" = none ∧
    effectsFor "a"
      (step (⟨none, [("b", ⟨none, none, false⟩)], []⟩ : GWState)
        (GEvent.clientMsg (ClientMsg.responseEnd "a"))).2 = [] ∧
    lookupEntry
      (step (⟨none, [("b", ⟨none, none, false⟩)], []⟩ : GWState)
        (GEvent.clientMsg (ClientMsg.responseEnd "a"))).1.pending "a" = none :=
  ⟨by decide, by decide,
    ((terminal_idempotent ⟨none, [("b", ⟨none, none, false⟩)], []⟩
      (GEvent.clientMsg (ClientMsg.responseEnd "a")) "a" (by decide)).2 (by decide)).1,
    ((terminal_idempotent ⟨none, [("b", ⟨none, none, false⟩)], []⟩
      (GEvent.clientMsg (ClientMsg.responseEnd "a")) "a" (by decide)).2 (by decide)).2.1⟩

/-! ## C9: the header-deadline timer -/

theorem not_mem_removeTimer (timers : List String) (id : String) :
    id ∉ removeTimer timers id := by
  unfold removeTimer
  intro hmem
  rw [List.mem_filter] at hmem
  simpa using hmem.2

/-- C9: the header deadline is the fixed 30000 ms timer; if it fires while a
`PendingRequest` is still waiting, the request is rejected with the timeout
message (the caller observes an error, not a hang) and removed from the
table; a `response-start` for the id clears the timer (the `clearTimeout` in
the headers-promise continuation); and a cleared timer's firing is a no-op,
so it never fires after successful resolution. -/
theorem header_deadline_timer (s : GWState) (id : String) (st : Nat) (hs : Headers) :
    REQUEST_TIMEOUT_MS = 30000 ∧
    (id ∈ s.timers → (lookupEntry s.pending id).isSome = true →
      (step s (GEvent.timerFire id)).2 = [Effect.rejectReq id timeoutMsg] ∧
      lookupEntry (step s (GEvent.timerFire id)).1.pending id = none) ∧
    ((lookupEntry s.pending id).isSome = true →
      id ∉ (step s (GEvent.clientMsg (ClientMsg.responseStart id st hs))).1.timers) ∧
    (id ∉ s.timers → step s (GEvent.timerFire id) = (s, [])) := by
  refine ⟨rfl, ?_, ?_, ?_⟩
  · intro harm hlook
    cases hl : lookupEntry s.pending id with
    | none => rw [hl] at hlook; simp at hlook
    | some e => simp [step, harm, hl, lookupEntry_deleteEntry_self]
  · intro hlook
    cases hl : lookupEntry s.pending id with
    | none => rw [hl] at hlook; simp at hlook
    | some e => simp [step, hl, not_mem_removeTimer]
  · intro harm
    simp [step, harm]

/-- Witness for C9: a pending request "a" with its timer armed, and the
timer-clearing effect of a `response-start`. -/
theorem header_deadline_timer_witness :
    "a" ∈ (⟨some ⟨1, 1⟩, [("a", ⟨none, none, false⟩)], ["a"]⟩ : GWState).timers ∧
    (lookupEntry ((⟨some ⟨1, 1⟩, [("a", ⟨none, none, false⟩)], ["a"]⟩ : GWState)).pending
      "a").isSome = true ∧
    (step (⟨some ⟨1, 1⟩, [("a", ⟨none, none, false⟩)], ["a"]⟩ : GWState)
      (GEvent.timerFire "a")).2 = [Effect.rejectReq "a" timeoutMsg] ∧
    "a" ∉ (step (⟨some ⟨1, 1⟩, [("a", ⟨none, none, false⟩)], ["a"]⟩ : GWState)
      (GEvent.clientMsg (ClientMsg.responseStart "a" 200 []))).1.timers :=
  ⟨by decide, by decide,
    ((header_deadline_timer ⟨some ⟨1, 1⟩, [("a", ⟨none, none, false⟩)], ["a"]⟩
      "a" 200 []).2.1 (by decide) (by decide)).1,
    (header_deadline_timer ⟨some ⟨1, 1⟩, [("a", ⟨none, none, false⟩)], ["a"]⟩
      "a" 200 []).2.2.1 (by decide)⟩

/-! ## C5: the trace a proxied exchange emits on the client side -/

theorem chunkMsgs_shape (id : String) (pieces : List (List Nat)) :
    ∀ m ∈ chunkMsgs id pieces, ∃ ch, m = ClientMsg.responseChunk id ch := by
  intro m hm
  unfold chunkMsgs at hm
  rw [List.mem_flatMap] at hm
  obtain ⟨p, hp, hm⟩ := hm
  rw [List.mem_map] at hm
  obtain ⟨c, hc, rfl⟩ := hm
  exact ⟨_, rfl⟩

theorem chunkMsgs_msgId (id : String) (pieces : List (List Nat)) :
    ∀ m ∈ chunkMsgs id pieces, msgId m = id := by
  intro m hm
  obtain ⟨ch, rfl⟩ := chunkMsgs_shape id pieces m hm
  rfl

theorem chunkMsgs_noEnd (id : String) (pieces : List (List Nat)) :
    ∀ m ∈ chunkMsgs id pieces, isEndMsg m = false := by
  intro m hm
  obtain ⟨ch, rfl⟩ := chunkMsgs_shape id pieces m hm
  rfl

theorem chunkMsgs_filter_error (id : String) (pieces : List (List Nat)) :
    (chunkMsgs id pieces).filter isErrorMsg = [] := by
  rw [List.filter_eq_nil_iff]
  intro m hm
  obtain ⟨ch, rfl⟩ := chunkMsgs_shape id pieces m hm
  simp [isErrorMsg]

theorem chunkMsgs_eq_map (id : String) (pieces : List (List Nat)) :
    chunkMsgs id pieces =
      (pieces.flatMap fun p => (chunkData p CHUNK_SIZE).map encodeBase64).map
        (ClientMsg.responseChunk id) := by
  simp [chunkMsgs, List.map_flatMap, List.map_map, Function.comp_def]

/-- C5: for every `request` message the Proxy Engine handles, the emitted
messages all carry the request's id and form one of two ordered traces: on
success, `response-start`, then the body chunks, then exactly one
`response-end`; on any failure (undecodable body, rejected fetch, body
stream error), exactly one `response-error` — as the final message, never
together with a `response-end` — preceded at most by the `response-start`
and chunks already emitted before the failure. -/
theorem proxy_trace_shape (req : ProxyRequestMsg) (outcome : FetchOutcome) :
    (∀ m ∈ handleProxyRequestClient req outcome, msgId m = req.id) ∧
    ((∃ (st : Nat) (hs : Headers) (cs : List (List Char)), handleProxyRequestClient req outcome =
        ClientMsg.responseStart req.id st hs ::
          cs.map (ClientMsg.responseChunk req.id) ++ [ClientMsg.responseEnd req.id]) ∨
      (∃ pre msg,
        handleProxyRequestClient req outcome = pre ++ [ClientMsg.responseError req.id msg] ∧
        (∀ m ∈ handleProxyRequestClient req outcome, isEndMsg m = false) ∧
        ((handleProxyRequestClient req outcome).filter isErrorMsg).length = 1 ∧
        (pre = [] ∨ ∃ (st : Nat) (hs : Headers) (cs : List (List Char)), pre = ClientMsg.responseStart req.id st hs ::
          cs.map (ClientMsg.responseChunk req.id)))) := by
  have herror : ∀ msg : String,
      (∀ m ∈ [ClientMsg.responseError req.id msg], msgId m = req.id) ∧
      ((∃ (st : Nat) (hs : Headers) (cs : List (List Char)), [ClientMsg.responseError req.id msg] =
          ClientMsg.responseStart req.id st hs ::
            cs.map (ClientMsg.responseChunk req.id) ++ [ClientMsg.responseEnd req.id]) ∨
        (∃ pre msg2,
          [ClientMsg.responseError req.id msg] = pre ++ [ClientMsg.responseError req.id msg2] ∧
          (∀ m ∈ [ClientMsg.responseError req.id msg], isEndMsg m = false) ∧
          (([ClientMsg.responseError req.id msg]).filter isErrorMsg).length = 1 ∧
          (pre = [] ∨ ∃ (st : Nat) (hs : Headers) (cs : List (List Char)), pre = ClientMsg.responseStart req.id st hs ::
            cs.map (ClientMsg.responseChunk req.id)))) := by
    intro msg
    constructor
    · intro m hm
      rw [List.mem_singleton] at hm
      rw [hm]
      rfl
    · right
      refine ⟨[], msg, rfl, ?_, by simp [isErrorMsg], Or.inl rfl⟩
      intro m hm
      rw [List.mem_singleton] at hm
      rw [hm]
      rfl
  have hsuccess : ∀ (st : Nat) (hs : Headers) (pieces : List (List Nat))
      (tailError : Option String),
      (∀ m ∈ ClientMsg.responseStart req.id st hs :: chunkMsgs req.id pieces ++
          (match tailError with
           | none => [ClientMsg.responseEnd req.id]
           | some msg => [ClientMsg.responseError req.id msg]), msgId m = req.id) ∧
      ((∃ (st2 : Nat) (hs2 : Headers) (cs : List (List Char)), (ClientMsg.responseStart req.id st hs :: chunkMsgs req.id pieces ++
          (match tailError with
           | none => [ClientMsg.responseEnd req.id]
           | some msg => [ClientMsg.responseError req.id msg])) =
          ClientMsg.responseStart req.id st2 hs2 ::
            cs.map (ClientMsg.responseChunk req.id) ++ [ClientMsg.responseEnd req.id]) ∨
        (∃ pre msg2,
          (ClientMsg.responseStart req.id st hs :: chunkMsgs req.id pieces ++
          (match tailError with
           | none => [ClientMsg.responseEnd req.id]
           | some msg => [ClientMsg.responseError req.id msg])) =
            pre ++ [ClientMsg.responseError req.id msg2] ∧
          (∀ m ∈ ClientMsg.responseStart req.id st hs :: chunkMsgs req.id pieces ++
          (match tailError with
           | none => [ClientMsg.responseEnd req.id]
           | some msg => [ClientMsg.responseError req.id msg]), isEndMsg m = false) ∧
          ((ClientMsg.responseStart req.id st hs :: chunkMsgs req.id pieces ++
          (match tailError with
           | none => [ClientMsg.responseEnd req.id]
           | some msg => [ClientMsg.responseError req.id msg])).filter isErrorMsg).length = 1 ∧
          (pre = [] ∨ ∃ (st3 : Nat) (hs3 : Headers) (cs : List (List Char)), pre = ClientMsg.responseStart req.id st3 hs3 ::
            cs.map (ClientMsg.responseChunk req.id)))) := by
    intro st hs pieces tailError
    have hmem : ∀ m, m ∈ ClientMsg.responseStart req.id st hs :: chunkMsgs req.id pieces →
        msgId m = req.id := by
      intro m hm
      rw [List.mem_cons] at hm
      rcases hm with hm | hm
      · rw [hm]; rfl
      · exact chunkMsgs_msgId req.id pieces m hm
    have hnoend : ∀ m, m ∈ ClientMsg.responseStart req.id st hs :: chunkMsgs req.id pieces →
        isEndMsg m = false := by
      intro m hm
      rw [List.mem_cons] at hm
      rcases hm with hm | hm
      · rw [hm]; rfl
      · exact chunkMsgs_noEnd req.id pieces m hm
    have hfilter : (ClientMsg.responseStart req.id st hs ::
        chunkMsgs req.id pieces).filter isErrorMsg = [] := by
      rw [List.filter_cons]
      have h0 : isErrorMsg (ClientMsg.responseStart req.id st hs) = false := rfl
      rw [h0]
      simpa using chunkMsgs_filter_error req.id pieces
    cases tailError with
    | none =>
      constructor
      · intro m hm
        rw [List.mem_append] at hm
        rcases hm with hm | hm
        · exact hmem m hm
        · rw [List.mem_singleton] at hm
          rw [hm]; rfl
      · left
        refine ⟨st, hs, pieces.flatMap fun p => (chunkData p CHUNK_SIZE).map encodeBase64, ?_⟩
        rw [chunkMsgs_eq_map]
    | some msg =>
      constructor
      · intro m hm
        rw [List.mem_append] at hm
        rcases hm with hm | hm
        · exact hmem m hm
        · rw [List.mem_singleton] at hm
          rw [hm]; rfl
      · right
        refine ⟨ClientMsg.responseStart req.id st hs :: chunkMsgs req.id pieces, msg,
          rfl, ?_, ?_, Or.inr ⟨st, hs,
            pieces.flatMap fun p => (chunkData p CHUNK_SIZE).map encodeBase64, ?_⟩⟩
        · intro m hm
          rw [List.mem_append] at hm
          rcases hm with hm | hm
          · exact hnoend m hm
          · rw [List.mem_singleton] at hm
            rw [hm]; rfl
        · rw [List.filter_append, hfilter]
          simp [isErrorMsg]
        · rw [chunkMsgs_eq_map]
  unfold handleProxyRequestClient
  cases hb : req.body with
  | none =>
    simp only [hb]
    cases outcome with
    | failure msg => exact herror msg
    | success st hs pieces tailError => exact hsuccess st hs pieces tailError
  | some b64 =>
    simp only [hb]
    cases hdec : atobBytes? b64 with
    | none => exact herror atobErrorMsg
    | some bytes =>
      cases outcome with
      | failure msg => exact herror msg
      | success st hs pieces tailError => exact hsuccess st hs pieces tailError

/-! ## C6: request-body transport between Gateway and downstream executor -/

/-- C6 evaluated at the failing input: for an inbound request whose body is
the two bytes `[0xC3, 0xA9]` (the UTF-8 encoding of a single accented
character), the gateway sends the base64 encoding of exactly those bytes,
but the downstream executor receives `[0xC3, 0x83, 0xC2, 0xA9]`: the client
decodes with `atob` into a binary string and hands that string to `fetch`,
which re-encodes it as UTF-8, so every byte `≥ 0x80` is corrupted.  The body
delivered downstream is NOT byte-identical to the original. -/
theorem request_body_not_byte_identical :
    (step (⟨some ⟨1, WS_OPEN⟩, [], []⟩ : GWState)
        (GEvent.proxyReq "r" "POST" "/" "" [] [[195, 169]])).2 =
      [Effect.sendRequest 1 ⟨"r", "POST", "/", [], some (encodeBase64 [195, 169])⟩] ∧
    executorBodyBytes (encodeBase64 [195, 169]) = some [195, 131, 194, 169] ∧
    [195, 131, 194, 169] ≠ [195, 169] := by
  refine ⟨by decide, by decide, by decide⟩

/-! ## C1: response pass-through and the CSS injection -/

set_option maxRecDepth 10000

theorem run_append (s : GWState) (es1 es2 : List GEvent) :
    run s (es1 ++ es2) =
      ((run (run s es1).1 es2).1, (run s es1).2 ++ (run (run s es1).1 es2).2) := by
  induction es1 generalizing s with
  | nil => simp [run]
  | cons e es ih => simp [run, ih, List.append_assoc]

theorem run_chunk_msgs (s : GWState) (id : String) (e : PendingEntry) (cs : List (List Nat))
    (hpend : lookupEntry s.pending id = some e)
    (hne : ∀ c ∈ cs, c ≠ [])
    (hlt : ∀ c ∈ cs, ∀ b ∈ c, b < 256) :
    run s (cs.map fun c => GEvent.clientMsg (ClientMsg.responseChunk id (encodeBase64 c))) =
      (s, cs.map fun c => Effect.enqueue id c) := by
  induction cs with
  | nil => rfl
  | cons c cs ih =>
    have hc : c ≠ [] := hne c (by simp)
    have hcb : ∀ b ∈ c, b < 256 := hlt c (by simp)
    have hstep : step s (GEvent.clientMsg (ClientMsg.responseChunk id (encodeBase64 c))) =
        (s, [Effect.enqueue id c]) := by
      simp [step, hpend, encodeBase64_ne_nil c hc, atob_encode c hcb]
    simp only [List.map_cons, run, hstep]
    rw [ih (fun x hx => hne x (by simp [hx])) (fun x hx => hlt x (by simp [hx]))]
    simp

theorem step_responseStart (s : GWState) (id : String) (st : Nat) (hs : Headers)
    (e : PendingEntry) (hpend : lookupEntry s.pending id = some e) :
    step s (GEvent.clientMsg (ClientMsg.responseStart id st hs)) =
      ({ s with
          pending := setEntry s.pending id
            ({ e with
                status := some st,
                headers := some hs,
                isCSS := isCssContentType (contentTypeOf hs) }),
          timers := removeTimer s.timers id },
        [Effect.resolveHeaders id st hs]) := by
  simp [step, hpend]

theorem step_responseEnd_not_css (s : GWState) (id : String) (e : PendingEntry)
    (hpend : lookupEntry s.pending id = some e) (hcss : e.isCSS = false) :
    step s (GEvent.clientMsg (ClientMsg.responseEnd id)) =
      ({ s with pending := deleteEntry s.pending id }, [Effect.closeStream id]) := by
  simp [step, hpend, hcss]

/-- C1 counterexample: the claim fails for CSS content.  With a pending
request "r" and an open connection, the downstream-produced response
`200, content-type: text/css, body "a"` (sent as `response-start`, one
base64 chunk, `response-end`) is NOT delivered byte-identically: on
`response-end` the gateway appends the fixed CSS override block before
closing the stream, so the caller receives the byte 97 followed by the 622
override bytes instead of just `[97]`. -/
theorem css_injection_appends_override :
    deliveredBody "r" (run (⟨some ⟨1, WS_OPEN⟩, [("r", ⟨none, none, false⟩)], ["r"]⟩ : GWState)
        [GEvent.clientMsg (ClientMsg.responseStart "r" 200 [("content-type", "text/css")]),
          GEvent.clientMsg (ClientMsg.responseChunk "r" (encodeBase64 [97])),
          GEvent.clientMsg (ClientMsg.responseEnd "r")]).2 = 97 :: cssOverrideBytes ∧
    97 :: cssOverrideBytes ≠ [97] := by
  constructor
  · decide
  · decide

/-- C1 amended: for every proxied exchange whose response content-type is not
CSS-flavoured (`isCssContentType` is false for it), the gateway delivers
exactly what the downstream executor produced: feeding the gateway the exact
message trace the Proxy Engine emits for a successful downstream response
(status `st`, headers `hs`, body `body`) resolves the caller's response with
exactly `st` and `hs`, streams exactly the decoded chunk bytes, appends
nothing, and closes the stream on `response-end`; the delivered body is
byte-identical to `body`.  (For CSS content types the fixed override block
is appended before close — see the counterexample.) -/
theorem passthrough_non_css (s : GWState) (id method url : String) (reqHeaders : Headers)
    (st : Nat) (hs : Headers) (body : List Nat) (e : PendingEntry)
    (hpend : lookupEntry s.pending id = some e)
    (hcss : isCssContentType (contentTypeOf hs) = false)
    (hbytes : ∀ b ∈ body, b < 256) :
    (gatewayOutputFor s ⟨id, method, url, reqHeaders, none⟩
        (FetchOutcome.success st hs [body] none)).2 =
      Effect.resolveHeaders id st hs ::
        ((chunkData body CHUNK_SIZE).map fun c => Effect.enqueue id c) ++
          [Effect.closeStream id] ∧
    deliveredBody id (gatewayOutputFor s ⟨id, method, url, reqHeaders, none⟩
        (FetchOutcome.success st hs [body] none)).2 = body := by
  have hmsgs : handleProxyRequestClient ⟨id, method, url, reqHeaders, none⟩
      (FetchOutcome.success st hs [body] none) =
      (ClientMsg.responseStart id st hs ::
        (chunkData body CHUNK_SIZE).map fun c => ClientMsg.responseChunk id (encodeBase64 c)) ++
        [ClientMsg.responseEnd id] := by
    simp [handleProxyRequestClient, chunkMsgs]
  have hpend1 : lookupEntry
      (setEntry s.pending id
        ({ e with
                status := some st,
                headers := some hs,
                isCSS := isCssContentType (contentTypeOf hs) })) id =
      some ({ e with
                status := some st,
                headers := some hs,
                isCSS := isCssContentType (contentTypeOf hs) }) :=
    lookupEntry_setEntry_self s.pending id _
  have hrun1 : run s (GEvent.clientMsg (ClientMsg.responseStart id st hs) ::
      List.map (fun c => GEvent.clientMsg (ClientMsg.responseChunk id (encodeBase64 c)))
        (chunkData body CHUNK_SIZE)) =
      ({ s with
          pending := setEntry s.pending id
            ({ e with
                status := some st,
                headers := some hs,
                isCSS := isCssContentType (contentTypeOf hs) }),
          timers := removeTimer s.timers id },
        Effect.resolveHeaders id st hs ::
          List.map (fun c => Effect.enqueue id c) (chunkData body CHUNK_SIZE)) := by
    simp only [run, step_responseStart s id st hs e hpend]
    rw [run_chunk_msgs _ id
      ({ e with
                status := some st,
                headers := some hs,
                isCSS := isCssContentType (contentTypeOf hs) })
      (chunkData body CHUNK_SIZE) hpend1
      (chunkData_ne_nil_mem body CHUNK_SIZE (by decide))
      (fun c hc b hb => hbytes b (chunkData_mem_mem body CHUNK_SIZE c hc b hb))]
    simp
  have hrun2 : run
      ({ s with
          pending := setEntry s.pending id
            ({ e with
                status := some st,
                headers := some hs,
                isCSS := isCssContentType (contentTypeOf hs) }),
          timers := removeTimer s.timers id } : GWState)
      [GEvent.clientMsg (ClientMsg.responseEnd id)] =
      ({ s with
          pending := deleteEntry
            (setEntry s.pending id
              ({ e with
                status := some st,
                headers := some hs,
                isCSS := isCssContentType (contentTypeOf hs) })) id,
          timers := removeTimer s.timers id },
        [Effect.closeStream id]) := by
    have hstepEnd := step_responseEnd_not_css
      ({ s with
          pending := setEntry s.pending id
            ({ e with
                status := some st,
                headers := some hs,
                isCSS := isCssContentType (contentTypeOf hs) }),
          timers := removeTimer s.timers id } : GWState)
      id
      ({ e with
                status := some st,
                headers := some hs,
                isCSS := isCssContentType (contentTypeOf hs) })
      hpend1 (by simpa using hcss)
    simp only [run, hstepEnd]
    simp
  have hout : (gatewayOutputFor s ⟨id, method, url, reqHeaders, none⟩
      (FetchOutcome.success st hs [body] none)).2 =
      Effect.resolveHeaders id st hs ::
        ((chunkData body CHUNK_SIZE).map fun c => Effect.enqueue id c) ++
          [Effect.closeStream id] := by
    unfold gatewayOutputFor
    rw [hmsgs]
    rw [List.map_append, List.map_cons, List.map_map]
    rw [show (GEvent.clientMsg ∘ fun c => ClientMsg.responseChunk id (encodeBase64 c)) =
        fun c => GEvent.clientMsg (ClientMsg.responseChunk id (encodeBase64 c)) from by
      funext c; rfl]
    rw [run_append, hrun1]
    simp [hrun2]
  refine ⟨hout, ?_⟩
  rw [hout]
  unfold deliveredBody
  rw [List.filterMap_append, List.filterMap_cons]
  simp only [List.filterMap_map]
  have hthis : List.filterMap
      ((fun eff => match eff with
        | Effect.enqueue i bs => if i = id then some bs else none
        | _ => none) ∘ fun c => Effect.enqueue id c)
      (chunkData body CHUNK_SIZE) = chunkData body CHUNK_SIZE := by
    rw [show ((fun eff => match eff with
        | Effect.enqueue i bs => if i = id then some bs else none
        | _ => none) ∘ fun c => Effect.enqueue id c) = fun c => some c from by
      funext c
      simp]
    simp
  simp only [hthis]
  have hcomb := combineChunks_chunkData body CHUNK_SIZE (by decide)
  unfold combineChunks at hcomb
  simpa using hcomb

/-- Witness for C1 (amended) at a concrete non-CSS exchange: pending request
"r", downstream response `200, text/plain, body [104, 105]`. -/
theorem passthrough_non_css_witness :
    lookupEntry ((⟨some ⟨1, 1⟩, [("r", ⟨none, none, false⟩)], []⟩ : GWState)).pending "r" =
      some ⟨none, none, false⟩ ∧
    isCssContentType (contentTypeOf [("content-type", "text/plain")]) = false ∧
    (∀ b ∈ [104, 105], b < 256) ∧
    ((gatewayOutputFor (⟨some ⟨1, 1⟩, [("r", ⟨none, none, false⟩)], []⟩ : GWState)
        ⟨"r", "GET", "/", [], none⟩
        (FetchOutcome.success 200 [("content-type", "text/plain")] [[104, 105]] none)).2 =
      Effect.resolveHeaders "r" 200 [("content-type", "text/plain")] ::
        ((chunkData [104, 105] CHUNK_SIZE).map fun c => Effect.enqueue "r" c) ++
          [Effect.closeStream "r"] ∧
      deliveredBody "r" (gatewayOutputFor (⟨some ⟨1, 1⟩, [("r", ⟨none, none, false⟩)], []⟩ : GWState)
        ⟨"r", "GET", "/", [], none⟩
        (FetchOutcome.success 200 [("content-type", "text/plain")] [[104, 105]] none)).2 =
        [104, 105]) :=
  ⟨by decide, by decide, by decide,
    passthrough_non_css ⟨some ⟨1, 1⟩, [("r", ⟨none, none, false⟩)], []⟩ "r" "GET" "/" []
      200 [("content-type", "text/plain")] [104, 105] ⟨none, none, false⟩
      (by decide) (by decide) (by decide)⟩


end OCT
